import Mathlib

/-!
Verification development for the EAGLE speculative-decoding worker
(python/sglang/srt/speculative/eagle_worker.py).

Each definition below is a shallow embedding of the corresponding Python
function or code path.  Python integer division (//) and modulo (%) on
nonnegative integers coincide with Nat division and modulo, which is what
we use throughout.  Tensors of integers are embedded as lists of Nat or
Int; per-request tensors are lists indexed by request position.
-/

namespace EagleWorker

/-! ## Draft cache layout for page_size > 1 and topk > 1

Embedding of `get_last_loc_large_page_size_large_top_k`
(eagle_worker.py lines 953-977), per request.  The Python function is
elementwise over the `seq_lens` tensor; we embed the per-element
computation.  The `last_loc` output only reads the request-to-token
table and does not affect the length arithmetic, so it is omitted here.
-/

/-- Per-request result of the large-page-size, large-top-k cache layout
computation. -/
structure PageLayout where
  prefix_len : Nat
  last_page_len : Nat
  num_new_pages_per_topk : Nat
  new_seq_len : Nat
  extend_len : Nat
deriving Repr, DecidableEq

/-- Embedding of `get_last_loc_large_page_size_large_top_k` for one request:
given the current sequence length (the prefix), the number of speculative
steps, the top-k branching factor and the page size, compute the layout
quantities exactly as the Python code does:
`last_page_lens = prefix_lens % page_size`,
`num_new_pages_per_topk = (last_page_lens + speculative_num_steps + page_size - 1) // page_size`,
`seq_lens = prefix_lens // page_size * page_size + num_new_pages_per_topk * (page_size * topk)`,
`extend_lens = seq_lens - prefix_lens`. -/
def get_last_loc_large_page_size_large_top_k
    (seq_len speculative_num_steps topk page_size : Nat) : PageLayout :=
  let prefix_len := seq_len
  let last_page_len := prefix_len % page_size
  let num_new_pages_per_topk :=
    (last_page_len + speculative_num_steps + page_size - 1) / page_size
  let new_seq_len :=
    prefix_len / page_size * page_size + num_new_pages_per_topk * (page_size * topk)
  let extend_len := new_seq_len - prefix_len
  ⟨prefix_len, last_page_len, num_new_pages_per_topk, new_seq_len, extend_len⟩

/-- Claim C1 counterexample: for prefix = 7, S = 3, K = 2, P = 8 the layout
computes `num_new_pages_per_topk = ceil((7 + 3) / 8) = 2`, hence
`new_seq_lens = 0 + 2 * 8 * 2 = 32` and `extend_lens = 32 - 7 = 25`;
the allocator is asked for 25 slots, not 9 as the claim states. -/
theorem c1_counterexample :
    (get_last_loc_large_page_size_large_top_k 7 3 2 8).extend_len = 25 ∧
    (get_last_loc_large_page_size_large_top_k 7 3 2 8).num_new_pages_per_topk = 2 ∧
    (get_last_loc_large_page_size_large_top_k 7 3 2 8).extend_len ≠ 9 := by
  decide

/-- Claim C1 (amended): for page_size P > 0 and topk K > 0, the layout
satisfies `last_page_lens = prefix % P`; `num_new_pages_per_topk` is the
least n with `last_page_lens + S ≤ n * P`, i.e. `ceil((last_page_lens + S) / P)`;
`new_seq_lens = floor(prefix / P) * P + num_new_pages_per_topk * P * K`;
and `extend_lens = new_seq_lens - prefix` with no truncation
(`extend_lens + prefix = new_seq_lens`).  At prefix = 7, K = 2, S = 3, P = 8
the computed extend length is 25. -/
theorem c1_layout_formulas (seq_len S K P : Nat) (hP : 0 < P) (hK : 0 < K) :
    (get_last_loc_large_page_size_large_top_k seq_len S K P).last_page_len
        = seq_len % P ∧
    (seq_len % P + S ≤
        P * (get_last_loc_large_page_size_large_top_k seq_len S K P).num_new_pages_per_topk ∧
      ∀ n, seq_len % P + S ≤ P * n →
        (get_last_loc_large_page_size_large_top_k seq_len S K P).num_new_pages_per_topk ≤ n) ∧
    (get_last_loc_large_page_size_large_top_k seq_len S K P).new_seq_len
        = seq_len / P * P +
          (get_last_loc_large_page_size_large_top_k seq_len S K P).num_new_pages_per_topk * P * K ∧
    (get_last_loc_large_page_size_large_top_k seq_len S K P).extend_len + seq_len
        = (get_last_loc_large_page_size_large_top_k seq_len S K P).new_seq_len ∧
    (get_last_loc_large_page_size_large_top_k 7 3 2 8).extend_len = 25 := by
  have hceil : (seq_len % P + S + P - 1) / P = (seq_len % P + S) ⌈/⌉ P :=
    (Nat.ceilDiv_eq_add_pred_div _ _).symm
  refine ⟨rfl, ⟨?_, ?_⟩, ?_, ?_, by decide⟩
  · show seq_len % P + S ≤ P * ((seq_len % P + S + P - 1) / P)
    rw [hceil]
    exact (ceilDiv_le_iff_le_mul hP).1 le_rfl
  · intro n hn
    show (seq_len % P + S + P - 1) / P ≤ n
    rw [hceil]
    exact (ceilDiv_le_iff_le_mul hP).2 hn
  · show seq_len / P * P + (seq_len % P + S + P - 1) / P * (P * K)
        = seq_len / P * P + (seq_len % P + S + P - 1) / P * P * K
    ring
  · show (seq_len / P * P + (seq_len % P + S + P - 1) / P * (P * K)) - seq_len + seq_len
        = seq_len / P * P + (seq_len % P + S + P - 1) / P * (P * K)
    refine Nat.sub_add_cancel ?_
    have hmod : seq_len % P ≤ (seq_len % P + S + P - 1) / P * (P * K) := by
      calc seq_len % P ≤ seq_len % P + S := Nat.le_add_right _ _
        _ ≤ P * ((seq_len % P + S) ⌈/⌉ P) := (ceilDiv_le_iff_le_mul hP).1 le_rfl
        _ = (seq_len % P + S + P - 1) / P * P := by
            rw [← hceil]; ring
        _ ≤ (seq_len % P + S + P - 1) / P * (P * K) := by
            exact Nat.mul_le_mul_left _ (Nat.le_mul_of_pos_right _ hK)
    calc seq_len = seq_len / P * P + seq_len % P := by
          rw [Nat.mul_comm (seq_len / P) P]
          exact (Nat.div_add_mod seq_len P).symm
      _ ≤ seq_len / P * P + (seq_len % P + S + P - 1) / P * (P * K) :=
          Nat.add_le_add_left hmod _

/-- Claim C1 amended-theorem witness at seq_len = 7, S = 3, K = 2, P = 8. -/
theorem c1_layout_formulas_witness :
    (0 : Nat) < 8 ∧ (0 : Nat) < 2 ∧
    ((get_last_loc_large_page_size_large_top_k 7 3 2 8).last_page_len = 7 % 8 ∧
      (7 % 8 + 3 ≤
          8 * (get_last_loc_large_page_size_large_top_k 7 3 2 8).num_new_pages_per_topk ∧
        ∀ n, 7 % 8 + 3 ≤ 8 * n →
          (get_last_loc_large_page_size_large_top_k 7 3 2 8).num_new_pages_per_topk ≤ n) ∧
      (get_last_loc_large_page_size_large_top_k 7 3 2 8).new_seq_len
          = 7 / 8 * 8 +
            (get_last_loc_large_page_size_large_top_k 7 3 2 8).num_new_pages_per_topk * 8 * 2 ∧
      (get_last_loc_large_page_size_large_top_k 7 3 2 8).extend_len + 7
          = (get_last_loc_large_page_size_large_top_k 7 3 2 8).new_seq_len ∧
      (get_last_loc_large_page_size_large_top_k 7 3 2 8).extend_len = 25) :=
  ⟨by decide, by decide, c1_layout_formulas 7 3 2 8 (by decide) (by decide)⟩

/-! ## Top-level dispatch of forward_batch_speculative_generation

Embedding of the control flow of `forward_batch_speculative_generation`
(eagle_worker.py lines 300-346).  We record the sequence of major stages
the method executes.  In the decode branch, the final stage
`forward_draft_extend_after_decode` is guarded by
`self.server_args.enable_dp_attention or batch.spec_info.verified_id.shape[0] > 0`
where `batch.spec_info` is, at that point, the draft input produced by
`verify` (its `verified_id` holds the accepted tokens of this step).
-/

/-- Major stages executed by `forward_batch_speculative_generation`. -/
inductive Stage
  | forward_target_extend
  | forward_draft_extend
  | draft
  | verify
  | forward_draft_extend_after_decode
deriving DecidableEq, Repr

/-- The batch attributes that the dispatch logic reads: the forward mode on
entry, whether any request in the batch is extending, and the number of
verified tokens produced by the verify stage (the shape of
`batch.spec_info.verified_id` after `verify` has replaced `spec_info`). -/
structure SpecGenBatch where
  forward_mode_is_extend : Bool
  is_extend_in_batch : Bool
  post_verify_verified_id_len : Nat
deriving DecidableEq, Repr

/-- Embedding of the stage sequence of `forward_batch_speculative_generation`:
the extend branch runs target extend then draft extend; the decode branch
runs draft, verify, and then `forward_draft_extend_after_decode` only when
dp attention is enabled or the post-verify `verified_id` is nonempty. -/
def forward_batch_speculative_generation
    (enable_dp_attention : Bool) (batch : SpecGenBatch) : List Stage :=
  if batch.forward_mode_is_extend || batch.is_extend_in_batch then
    [Stage.forward_target_extend, Stage.forward_draft_extend]
  else
    [Stage.draft, Stage.verify] ++
      (if enable_dp_attention || decide (0 < batch.post_verify_verified_id_len) then
        [Stage.forward_draft_extend_after_decode]
      else [])

/-- Claim C2 counterexample: a decode-mode batch whose verify stage leaves
`verified_id` empty, with dp attention disabled, runs only draft and verify;
`forward_draft_extend_after_decode` is skipped. -/
theorem c2_counterexample :
    forward_batch_speculative_generation false ⟨false, false, 0⟩ =
      [Stage.draft, Stage.verify] ∧
    Stage.forward_draft_extend_after_decode ∉
      forward_batch_speculative_generation false ⟨false, false, 0⟩ := by
  decide

/-- Claim C2 (amended): every decode-mode (non-extend) batch runs draft, then
verify; `forward_draft_extend_after_decode`, when it runs, runs last, and it
runs exactly when dp attention is enabled or the post-verify `verified_id`
is nonempty. -/
theorem c2_decode_stage_order (enable_dp_attention : Bool) (batch : SpecGenBatch)
    (hmode : batch.forward_mode_is_extend = false)
    (hext : batch.is_extend_in_batch = false) :
    ∃ tail,
      forward_batch_speculative_generation enable_dp_attention batch =
        [Stage.draft, Stage.verify] ++ tail ∧
      ((tail = [Stage.forward_draft_extend_after_decode] ∧
          (enable_dp_attention = true ∨ 0 < batch.post_verify_verified_id_len)) ∨
        (tail = [] ∧ enable_dp_attention = false ∧
          batch.post_verify_verified_id_len = 0)) := by
  refine ⟨if enable_dp_attention || decide (0 < batch.post_verify_verified_id_len) then
    [Stage.forward_draft_extend_after_decode] else [], ?_, ?_⟩
  · unfold forward_batch_speculative_generation
    rw [hmode, hext]
    simp
  · by_cases hdp : enable_dp_attention
    · exact Or.inl ⟨by simp [hdp], Or.inl hdp⟩
    · by_cases hv : 0 < batch.post_verify_verified_id_len
      · exact Or.inl ⟨by simp [hdp, hv], Or.inr hv⟩
      · exact Or.inr ⟨by simp [hdp, hv], by simpa using hdp, by omega⟩

/-- Claim C2 amended-theorem witness: a decode batch with one verified token
and dp attention disabled runs all three stages in order. -/
theorem c2_decode_stage_order_witness :
    (SpecGenBatch.forward_mode_is_extend ⟨false, false, 1⟩ = false) ∧
    (SpecGenBatch.is_extend_in_batch ⟨false, false, 1⟩ = false) ∧
    ∃ tail,
      forward_batch_speculative_generation false ⟨false, false, 1⟩ =
        [Stage.draft, Stage.verify] ++ tail ∧
      ((tail = [Stage.forward_draft_extend_after_decode] ∧
          (false = true ∨ 0 < SpecGenBatch.post_verify_verified_id_len ⟨false, false, 1⟩)) ∨
        (tail = [] ∧ false = false ∧
          SpecGenBatch.post_verify_verified_id_len ⟨false, false, 1⟩ = 0)) :=
  ⟨by decide, by decide, c2_decode_stage_order false ⟨false, false, 1⟩ rfl rfl⟩

/-! ## Hot-token remap in draft_forward

Embedding of the remap `topk_index = self.hot_token_id[topk_index]`
(eagle_worker.py lines 594-595 and 637-638).  The tensor `hot_token_id`
maps each draft-vocabulary index to a target-vocabulary id; indexing a
tensor with an out-of-range index is an error, embedded as `none`. -/

/-- Elementwise tensor indexing `hot_token_id[ts]`: each entry t of ts is
replaced by `hot_token_id[t]`; any out-of-range entry makes the whole
operation fail. -/
def hot_token_remap (hot_token_id : List Nat) : List Nat → Option (List Nat)
  | [] => some []
  | t :: ts =>
    match hot_token_id[t]?, hot_token_remap hot_token_id ts with
    | some v, some vs => some (v :: vs)
    | _, _ => none

/-- Claim C3 counterexample: for the injective hot-token map [1, 0] and the
index tensor [0], one application gives [1] but a second application gives
[0]; the remap is not idempotent for every configured map. -/
theorem c3_counterexample :
    hot_token_remap [1, 0] [0] = some [1] ∧
    (hot_token_remap [1, 0] [0]).bind (hot_token_remap [1, 0]) = some [0] ∧
    (hot_token_remap [1, 0] [0]).bind (hot_token_remap [1, 0]) ≠
      hot_token_remap [1, 0] [0] := by
  decide

/-- Claim C3 (amended): the remap is idempotent exactly for maps that fix
every element of their own image: if `hot_token_id[v] = v` for every value v
occurring in `hot_token_id`, then applying the remap to its own output
returns that output unchanged. -/
theorem c3_remap_idempotent_on_image_fixing_maps
    (hot_token_id ts once : List Nat)
    (hfix : ∀ v ∈ hot_token_id, hot_token_id[v]? = some v)
    (h1 : hot_token_remap hot_token_id ts = some once) :
    hot_token_remap hot_token_id once = some once := by
  induction ts generalizing once with
  | nil =>
    simp only [hot_token_remap] at h1
    cases h1
    rfl
  | cons t ts ih =>
    simp only [hot_token_remap] at h1
    cases hget : hot_token_id[t]? with
    | none => rw [hget] at h1; cases h1
    | some v =>
      rw [hget] at h1
      cases hrest : hot_token_remap hot_token_id ts with
      | none => rw [hrest] at h1; cases h1
      | some vs =>
        rw [hrest] at h1
        cases h1
        have hv : v ∈ hot_token_id := by
          have := List.getElem?_eq_some.mp hget
          obtain ⟨hlt, heq⟩ := this
          exact heq ▸ List.getElem_mem hlt
        simp only [hot_token_remap, hfix v hv, ih vs hrest]

/-- Claim C3 amended-theorem witness: the identity map [0, 1] fixes its image
and remapping [1, 0] twice returns [1, 0] both times. -/
theorem c3_remap_idempotent_witness :
    (∀ v ∈ [0, 1], [0, 1][v]? = some v) ∧
    hot_token_remap [0, 1] [1, 0] = some [1, 0] ∧
    hot_token_remap [0, 1] [1, 0] = some [1, 0] :=
  ⟨by decide, by decide,
    c3_remap_idempotent_on_image_fixing_maps [0, 1] [1, 0] [1, 0]
      (by decide) (by decide)⟩

/-! ## NaN detection

Embedding of `_detect_nan_if_needed` (eagle_worker.py lines 917-922).
Logit entries are embedded as an inductive value that is either NaN or an
ordinary number; `torch.isnan` becomes the `isNaN` discriminator and
`torch.any` becomes `List.any`.  Raising ValueError is embedded as
returning an `Except.error`. -/

/-- A logit entry: either NaN or an ordinary numeric value. -/
inductive FloatVal
  | nan
  | num (q : ℚ)
deriving DecidableEq

/-- Discriminator corresponding to `torch.isnan` on one entry. -/
def FloatVal.isNaN : FloatVal → Bool
  | .nan => true
  | .num _ => false

/-- Embedding of `_detect_nan_if_needed`: when NaN detection is enabled and
any entry of `next_token_logits` is NaN, raise ValueError; otherwise return
normally. -/
def detect_nan_if_needed (enable_nan_detection : Bool)
    (next_token_logits : List FloatVal) : Except String Unit :=
  if enable_nan_detection then
    if next_token_logits.any FloatVal.isNaN then
      Except.error "Detected errors during sampling! NaN in the logits."
    else
      Except.ok ()
  else
    Except.ok ()

/-- Whether an `Except` result is an error, i.e. the embedded call raised. -/
def raisesError {ε α : Type} : Except ε α → Bool
  | .error _ => true
  | .ok _ => false

/-- Claim C4: the NaN check raises an error if and only if NaN detection is
enabled and some entry of the logits is NaN; in particular with detection
disabled it never raises. -/
theorem c4_nan_check (enable_nan_detection : Bool)
    (next_token_logits : List FloatVal) :
    (raisesError (detect_nan_if_needed enable_nan_detection next_token_logits) = true ↔
      (enable_nan_detection = true ∧
        ∃ x ∈ next_token_logits, x.isNaN = true)) ∧
    raisesError (detect_nan_if_needed false next_token_logits) = false := by
  constructor
  · cases enable_nan_detection with
    | false => simp [detect_nan_if_needed, raisesError]
    | true =>
      by_cases h : ∃ x ∈ next_token_logits, x.isNaN = true
      · have hany : next_token_logits.any FloatVal.isNaN = true := by
          rw [List.any_eq_true]; simpa using h
        simp [detect_nan_if_needed, raisesError, hany, h]
      · have hany : next_token_logits.any FloatVal.isNaN = false := by
          rw [Bool.eq_false_iff, Ne, List.any_eq_true]; simpa using h
        simp [detect_nan_if_needed, raisesError, hany, h]
  · simp [detect_nan_if_needed, raisesError]

/-! ## KV allocator and draft decode preprocessing

The allocator implementation (ScheduleBatch.alloc_token_slots,
alloc_paged_token_slots_extend and the token-to-kv-pool allocator) is not
part of this repository slice; only its call sites in eagle_worker.py are.

Modelled from the spec: the KV cache_slot allocator of section 3 and the
interface of section 6, `alloc_token_slots(n, backup_state) -> (slots, token)`
and `restore_state(token)` releasing everything allocated since the backup
(section 4.2).  We model the allocator as a bump allocator over slot ids:
`free_head` is the first unallocated slot id, a backup token is a snapshot
of the state, and restoring sets the state back to the snapshot. -/

/-- Allocator state: all slots below `free_head` are allocated. -/
structure Allocator where
  free_head : Nat
deriving DecidableEq, Repr

/-- Allocate `need` fresh slot ids, returning them and the new state. -/
def Allocator.alloc (a : Allocator) (need : Nat) : List Nat × Allocator :=
  ((List.range need).map (fun i => a.free_head + i), ⟨a.free_head + need⟩)

/-- A backup token is a snapshot of the allocator state. -/
def Allocator.backup_token (a : Allocator) : Allocator := a

/-- Restoring discards everything allocated since the backup. -/
def Allocator.restore_state (_ : Allocator) (tok : Allocator) : Allocator := tok

/-- One allocator interaction performed by `_draft_preprocess_decode`,
recording the slot count requested and the `backup_state` flag passed. -/
inductive AllocCall
  | alloc_token_slots (num_tokens : Nat) (backup_state : Bool)
  | alloc_paged_token_slots_extend (extend_num_tokens : Nat) (backup_state : Bool)
  | restore_state
deriving DecidableEq, Repr

/-- Whether an allocator interaction passed `backup_state=True` (trivially
true for the restore call itself). -/
def AllocCall.requests_backup : AllocCall → Bool
  | .alloc_token_slots _ b => b
  | .alloc_paged_token_slots_extend _ b => b
  | .restore_state => true

/-- Result of the allocation part of `_draft_preprocess_decode`: the slot
ids left in `batch.out_cache_loc`, the final allocator state, and the
sequence of allocator interactions in program order. -/
structure DecodePreprocessOut where
  out_cache_loc : List Nat
  allocator : Allocator
  calls : List AllocCall
deriving DecidableEq, Repr

/-- Embedding of the cache-allocation logic of `_draft_preprocess_decode`
(eagle_worker.py lines 393-495) for a non-idle decode batch.  With
page_size = 1 it allocates `num_seqs * speculative_num_steps * topk` slots
in one `alloc_token_slots` call with `backup_state=True`.  Otherwise it
computes `extend_num_tokens` (for topk = 1, `num_seqs * speculative_num_steps`;
for topk > 1, the sum of the per-request extend lengths of
`get_last_loc_large_page_size_large_top_k`) and makes one
`alloc_paged_token_slots_extend` call with `backup_state=True`; when
page_size > 1 and topk > 1 the padded slots are then dropped, keeping the
first `num_seqs * topk * speculative_num_steps` entries.  In every path the
function ends by calling `restore_state` on the backup token. -/
def draft_preprocess_decode (page_size topk speculative_num_steps : Nat)
    (seq_lens : List Nat) (a : Allocator) : DecodePreprocessOut :=
  let num_seqs := seq_lens.length
  if page_size = 1 then
    let need := num_seqs * speculative_num_steps * topk
    let backup := a.backup_token
    let alloc_res := a.alloc need
    { out_cache_loc := alloc_res.1,
      allocator := alloc_res.2.restore_state backup,
      calls := [AllocCall.alloc_token_slots need true, AllocCall.restore_state] }
  else
    let extend_num_tokens :=
      if topk = 1 then
        num_seqs * speculative_num_steps
      else
        (seq_lens.map fun s =>
          (get_last_loc_large_page_size_large_top_k
            s speculative_num_steps topk page_size).extend_len).sum
    let backup := a.backup_token
    let alloc_res := a.alloc extend_num_tokens
    let out_cache_loc :=
      if 1 < page_size ∧ 1 < topk then
        alloc_res.1.take (num_seqs * topk * speculative_num_steps)
      else
        alloc_res.1
    { out_cache_loc := out_cache_loc,
      allocator := alloc_res.2.restore_state backup,
      calls := [AllocCall.alloc_paged_token_slots_extend extend_num_tokens true,
        AllocCall.restore_state] }

/-- Claim C5: for a non-idle decode batch with page_size = 1, draft
preprocessing performs exactly one slot allocation, an `alloc_token_slots`
call for `B * S * K` slots with `backup_state=True` (B the number of
requests, S the number of speculative steps, K the top-k), and
`out_cache_loc` receives exactly those `B * S * K` slots. -/
theorem c5_page_size_one_single_alloc
    (page_size topk speculative_num_steps : Nat) (seq_lens : List Nat)
    (a : Allocator) (hP : page_size = 1) :
    (draft_preprocess_decode page_size topk speculative_num_steps seq_lens a).calls =
      [AllocCall.alloc_token_slots
        (seq_lens.length * speculative_num_steps * topk) true,
       AllocCall.restore_state] ∧
    (draft_preprocess_decode page_size topk speculative_num_steps
        seq_lens a).out_cache_loc.length =
      seq_lens.length * speculative_num_steps * topk := by
  subst hP
  unfold draft_preprocess_decode
  simp [Allocator.alloc]

/-- Claim C5 witness: two requests, three steps, top-k two, page size one. -/
theorem c5_page_size_one_single_alloc_witness :
    (1 : Nat) = 1 ∧
    ((draft_preprocess_decode 1 2 3 [5, 9] ⟨100⟩).calls =
      [AllocCall.alloc_token_slots ([5, 9].length * 3 * 2) true,
       AllocCall.restore_state] ∧
    (draft_preprocess_decode 1 2 3 [5, 9] ⟨100⟩).out_cache_loc.length =
      [5, 9].length * 3 * 2) :=
  ⟨rfl, c5_page_size_one_single_alloc 1 2 3 [5, 9] ⟨100⟩ rfl⟩

/-- Claim C10: for every non-idle decode batch, `_draft_preprocess_decode`
leaves the allocator state exactly as it found it: every allocation passes
`backup_state=True`, and `restore_state` runs on the backup token before
returning; yet every slot id kept in `batch.out_cache_loc` lies at or above
the restored free head, i.e. it still references slots the restored
allocator considers free. -/
theorem c10_allocator_state_restored
    (page_size topk speculative_num_steps : Nat) (seq_lens : List Nat)
    (a : Allocator) :
    (draft_preprocess_decode page_size topk speculative_num_steps
        seq_lens a).allocator = a ∧
    (∀ c ∈ (draft_preprocess_decode page_size topk speculative_num_steps
        seq_lens a).calls, c.requests_backup = true) ∧
    AllocCall.restore_state ∈
      (draft_preprocess_decode page_size topk speculative_num_steps
        seq_lens a).calls ∧
    ∀ loc ∈ (draft_preprocess_decode page_size topk speculative_num_steps
        seq_lens a).out_cache_loc,
      (draft_preprocess_decode page_size topk speculative_num_steps
        seq_lens a).allocator.free_head ≤ loc := by
  unfold draft_preprocess_decode
  by_cases hP : page_size = 1
  · simp only [hP, if_true]
    refine ⟨rfl, ?_, by simp, ?_⟩
    · intro c hc
      simp only [List.mem_cons, List.not_mem_nil, or_false] at hc
      rcases hc with h | h <;> simp [h, AllocCall.requests_backup]
    · intro loc hloc
      simp only [Allocator.alloc, Allocator.restore_state, Allocator.backup_token,
        List.mem_map, List.mem_range] at hloc ⊢
      obtain ⟨i, _, rfl⟩ := hloc
      exact Nat.le_add_right _ _
  · simp only [hP, if_false]
    refine ⟨rfl, ?_, by simp, ?_⟩
    · intro c hc
      simp only [List.mem_cons, List.not_mem_nil, or_false] at hc
      rcases hc with h | h <;> simp [h, AllocCall.requests_backup]
    · intro loc hloc
      simp only [Allocator.alloc, Allocator.restore_state, Allocator.backup_token] at hloc ⊢
      by_cases htrim : 1 < page_size ∧ 1 < topk
      · simp only [htrim, if_true] at hloc
        have := List.mem_of_mem_take hloc
        simp only [List.mem_map, List.mem_range] at this
        obtain ⟨i, _, rfl⟩ := this
        exact Nat.le_add_right _ _
      · simp only [htrim, if_false, List.mem_map, List.mem_range] at hloc
        obtain ⟨i, _, rfl⟩ := hloc
        exact Nat.le_add_right _ _

/-! ## Frame of forward_draft_extend_after_decode

Embedding of the backup/restore structure of
`forward_draft_extend_after_decode` (eagle_worker.py lines 824-908).
The batch fields the routine backs up are embedded as a record; the body
between backup and restore (`prepare_extend_after_decode`, forward-mode
switch, the draft forward and capture) mutates the batch and is external
code not in this repository slice, so it is embedded as an arbitrary
state transformer supplied as a parameter.  When the batch is non-idle but
`verified_id` is empty, the code rebinds `batch` to `batch.copy()` and all
further mutation hits the copy, so the caller-visible batch is unchanged;
we embed that branch as returning the input state. -/

/-- The batch fields read and restored by `forward_draft_extend_after_decode`. -/
structure ExtendAfterDecodeBatch where
  seq_lens : List Nat
  req_pool_indices : List Nat
  accept_length : List Nat
  return_logprob : Bool
  forward_mode_is_idle : Bool
  verified_id_len : Nat
deriving DecidableEq, Repr

/-- Embedding of `forward_draft_extend_after_decode`: back up `seq_lens`
(cloned), `req_pool_indices`, `spec_info.accept_length` and
`return_logprob`; run the in-place-mutating body (idle fold plus
`prepare_extend_after_decode`, forward-mode switch and draft forward,
abstracted as `body`); then restore the four fields and reset the forward
mode to its entry idleness. -/
def forward_draft_extend_after_decode
    (body : ExtendAfterDecodeBatch → ExtendAfterDecodeBatch)
    (batch : ExtendAfterDecodeBatch) : ExtendAfterDecodeBatch :=
  let seq_lens_backup := batch.seq_lens
  let req_pool_indices_backup := batch.req_pool_indices
  let accept_length_backup := batch.accept_length
  let return_logprob_backup := batch.return_logprob
  let input_is_idle := batch.forward_mode_is_idle
  if input_is_idle = false ∧ batch.verified_id_len = 0 then
    batch
  else
    let mutated := body batch
    { mutated with
      seq_lens := seq_lens_backup,
      req_pool_indices := req_pool_indices_backup,
      accept_length := accept_length_backup,
      return_logprob := return_logprob_backup,
      forward_mode_is_idle := input_is_idle }

/-- Claim C6: whatever the in-place-mutating body does,
`forward_draft_extend_after_decode` leaves `seq_lens`, `req_pool_indices`,
`accept_length` and `return_logprob` equal to their values on entry. -/
theorem c6_extend_after_decode_frame
    (body : ExtendAfterDecodeBatch → ExtendAfterDecodeBatch)
    (batch : ExtendAfterDecodeBatch) :
    (forward_draft_extend_after_decode body batch).seq_lens = batch.seq_lens ∧
    (forward_draft_extend_after_decode body batch).req_pool_indices =
      batch.req_pool_indices ∧
    (forward_draft_extend_after_decode body batch).accept_length =
      batch.accept_length ∧
    (forward_draft_extend_after_decode body batch).return_logprob =
      batch.return_logprob := by
  unfold forward_draft_extend_after_decode
  by_cases h : batch.forward_mode_is_idle = false ∧ batch.verified_id_len = 0 <;>
    simp [h]

/-! ## Attention backend selection

Embedding of `init_attention_backend` (eagle_worker.py lines 176-257).
The method branches on `self.server_args.attention_backend`; within the
"flashinfer" branch it further branches on the global
`use_mla_backend` flag.  Each branch records which multi-step draft
backend and which (optional) draft-extend backend get constructed, and
whether a prefill wrapper is used for verify.  Any other backend string
raises ValueError. -/

/-- The multi-step draft attention backends the worker can construct. -/
inductive DraftBackend
  | flashinfer_multi_step
  | flashinfer_mla_multi_step
  | triton_multi_step
  | fa3_multi_step
  | flashmla_multi_step
deriving DecidableEq, Repr

/-- The draft-extend attention backends the worker can construct. -/
inductive ExtendBackend
  | flashinfer
  | flashinfer_mla
  | triton
  | fa3
deriving DecidableEq, Repr

/-- What `init_attention_backend` sets up on success. -/
structure AttnBackendSel where
  draft_attn_backend : DraftBackend
  draft_extend_attn_backend : Option ExtendBackend
  has_prefill_wrapper_verify : Bool
deriving DecidableEq, Repr

/-- Embedding of `init_attention_backend`: dispatch on the configured
`attention_backend` string (and the global `use_mla_backend` flag inside the
flashinfer branch), constructing the matching backends; raise ValueError
for any other string. -/
def init_attention_backend (attention_backend : String) (use_mla_backend : Bool) :
    Except String AttnBackendSel :=
  if attention_backend = "flashinfer" then
    if use_mla_backend = false then
      Except.ok ⟨DraftBackend.flashinfer_multi_step, some ExtendBackend.flashinfer, true⟩
    else
      Except.ok ⟨DraftBackend.flashinfer_mla_multi_step,
        some ExtendBackend.flashinfer_mla, true⟩
  else if attention_backend = "triton" then
    Except.ok ⟨DraftBackend.triton_multi_step, some ExtendBackend.triton, false⟩
  else if attention_backend = "fa3" then
    Except.ok ⟨DraftBackend.fa3_multi_step, some ExtendBackend.fa3, false⟩
  else if attention_backend = "flashmla" then
    Except.ok ⟨DraftBackend.flashmla_multi_step, none, false⟩
  else
    Except.error
      ("EAGLE is not supported in attention backend " ++ attention_backend)

/-- Claim C8 counterexample: the backend kind string "flashinfer-mla" is not
one of the recognized cases and raises ValueError at construction, although
the claim lists it as a supported kind (MLA is reached through the
"flashinfer" kind plus the use_mla_backend flag). -/
theorem c8_counterexample :
    raisesError (init_attention_backend "flashinfer-mla" false) = true ∧
    raisesError (init_attention_backend "flashinfer-mla" true) = true := by
  decide

/-- Claim C8 (amended): `init_attention_backend` succeeds exactly for the
backend kinds flashinfer, triton, fa3 and flashmla (flashinfer selecting
the MLA multi-step variant when the MLA flag is set) and raises ValueError
for every other kind, including the string "flashinfer-mla". -/
theorem c8_backend_dispatch (attention_backend : String) (use_mla_backend : Bool) :
    (raisesError (init_attention_backend attention_backend use_mla_backend) = false ↔
      (attention_backend = "flashinfer" ∨ attention_backend = "triton" ∨
        attention_backend = "fa3" ∨ attention_backend = "flashmla")) ∧
    init_attention_backend "flashinfer" false =
      Except.ok ⟨DraftBackend.flashinfer_multi_step, some ExtendBackend.flashinfer, true⟩ ∧
    init_attention_backend "flashinfer" true =
      Except.ok ⟨DraftBackend.flashinfer_mla_multi_step,
        some ExtendBackend.flashinfer_mla, true⟩ ∧
    init_attention_backend "triton" use_mla_backend =
      Except.ok ⟨DraftBackend.triton_multi_step, some ExtendBackend.triton, false⟩ ∧
    init_attention_backend "fa3" use_mla_backend =
      Except.ok ⟨DraftBackend.fa3_multi_step, some ExtendBackend.fa3, false⟩ ∧
    init_attention_backend "flashmla" use_mla_backend =
      Except.ok ⟨DraftBackend.flashmla_multi_step, none, false⟩ := by
  refine ⟨?_, ?_, ?_, ?_, ?_, ?_⟩
  · unfold init_attention_backend
    split_ifs with h1 h2 h3 h4 h5 <;> simp_all [raisesError]
  all_goals
    cases use_mla_backend <;> rfl

/-! ## Vocab mask clearing in verify

Embedding of the grammar-mask handling in `verify`
(eagle_worker.py lines 658-699).  When the batch carries a grammar, the
mask for the current step is generated (possibly none) while the target
forward runs; if a mask was generated, the stale
`batch.sampling_info.vocab_mask` left over from a previous stage is set to
None before `spec_info.verify` is invoked with the fresh mask. -/

/-- State at the moment `spec_info.verify` is called: the value of
`batch.sampling_info.vocab_mask`, and the mask passed to the verify call. -/
structure VerifyMaskContext where
  sampling_vocab_mask : Option (List Bool)
  mask_passed_to_verify : Option (List Bool)
deriving DecidableEq, Repr

/-- Embedding of the vocab-mask plumbing in `verify`: `vocab_mask` starts as
None; when the batch has a grammar the generated bitmask replaces it; when
the generated mask is not None, `batch.sampling_info.vocab_mask` is cleared
to None before `spec_info.verify` receives the fresh mask. -/
def verify_vocab_mask_handling (has_grammar : Bool)
    (entry_vocab_mask : Option (List Bool))
    (generated_mask : Option (List Bool)) : VerifyMaskContext :=
  if has_grammar then
    match generated_mask with
    | some m => { sampling_vocab_mask := none, mask_passed_to_verify := some m }
    | none =>
      { sampling_vocab_mask := entry_vocab_mask, mask_passed_to_verify := none }
  else
    { sampling_vocab_mask := entry_vocab_mask, mask_passed_to_verify := none }

/-- Claim C9: whenever a verify step of a grammar-carrying batch generates a
non-None vocab mask, `batch.sampling_info.vocab_mask` is None at the moment
`spec_info.verify` applies the fresh mask, whatever stale mask was present
on entry; a prior-step mask is never the one applied. -/
theorem c9_stale_mask_cleared (entry_vocab_mask : Option (List Bool))
    (m : List Bool) :
    (verify_vocab_mask_handling true entry_vocab_mask (some m)).sampling_vocab_mask
        = none ∧
    (verify_vocab_mask_handling true entry_vocab_mask (some m)).mask_passed_to_verify
        = some m := by
  exact ⟨rfl, rfl⟩

/-! ## Logprob attachment

Embedding of `add_logprob_values` (eagle_worker.py lines 720-787).  Logit
rows are embedded as lists of rationals, one row per accepted flat index
(the method asserts `len(accepted_indices) == len(next_token_logits)`).
The transcendental `log_softmax` is embedded as an abstract row transform
`log_softmax_row`, so the theorems capture the index plumbing exactly:
which temperature scales which row, which column is selected, and how the
read cursor pt advances through the per-request loop. -/

/-- The per-request fields that `add_logprob_values` reads and appends to. -/
structure LogprobReq where
  return_logprob : Bool
  output_token_logprobs_val : List ℚ
  output_token_logprobs_idx : List Nat
deriving DecidableEq, Repr

/-- Placeholder request used as the default of list lookups. -/
def LogprobReq.dummy : LogprobReq := ⟨false, [], []⟩

/-- Embedding of `temperatures = temperatures[accepted_indices // num_draft_tokens]`:
gather the per-request temperature for each accepted flat index, the request
index being the accepted index integer-divided by `num_draft_tokens`. -/
def gather_temperatures (temperatures : List ℚ) (num_draft_tokens : Nat)
    (accepted_indices : List Nat) : List ℚ :=
  accepted_indices.map fun j => temperatures.getD (j / num_draft_tokens) 0

/-- Embedding of
`logprobs = log_softmax(logits_output.next_token_logits / temperatures)`:
scale each logit row by its gathered temperature and apply the row
transform. -/
def scaled_logprob_rows (log_softmax_row : List ℚ → List ℚ)
    (next_token_logits : List (List ℚ)) (temps : List ℚ) : List (List ℚ) :=
  (next_token_logits.zip temps).map fun rt =>
    log_softmax_row (rt.1.map fun x => x / rt.2)

/-- Embedding of
`next_token_logprobs = logprobs[arange(len(batch_next_token_ids)), batch_next_token_ids]`:
select, in each row, the column of the verified token id. -/
def select_verified_logprobs (logprobs : List (List ℚ))
    (batch_next_token_ids : List Nat) : List ℚ :=
  (logprobs.zip batch_next_token_ids).map fun rv => rv.1.getD rv.2 0

/-- Embedding of the inner token loop of `add_logprob_values`: for one
request, consume `n` tokens starting at read cursor `pt`, appending value
and id when the request asked for logprobs, and advancing pt by one per
token. -/
def attach_tokens (vals : List ℚ) (ids : List Nat) :
    LogprobReq → Nat → Nat → LogprobReq × Nat
  | req, pt, 0 => (req, pt)
  | req, pt, n + 1 =>
    let req2 :=
      if req.return_logprob then
        { req with
          output_token_logprobs_val :=
            req.output_token_logprobs_val ++ [vals.getD pt 0],
          output_token_logprobs_idx :=
            req.output_token_logprobs_idx ++ [ids.getD pt 0] }
      else req
    attach_tokens vals ids req2 (pt + 1) n

/-- Embedding of the outer request loop of `add_logprob_values`: walk the
requests, paired with their token counts, threading the shared read cursor
pt through the inner loops. -/
def attach_output_logprobs (vals : List ℚ) (ids : List Nat) :
    List (LogprobReq × Nat) → Nat → List LogprobReq
  | [], _ => []
  | (req, n) :: rest, pt =>
    let rp := attach_tokens vals ids req pt n
    rp.1 :: attach_output_logprobs vals ids rest rp.2

/-- Embedding of `add_logprob_values`: gather temperatures by
`accepted_indices // num_draft_tokens`, compute the scaled logprob rows,
select the verified-token column in each row, set
`num_tokens_per_req = [accept + 1 for accept in accept_length_per_req_cpu]`
and run the request loop starting with pt = 0.  Returns the selected
logprobs tensor and the updated requests. -/
def add_logprob_values (log_softmax_row : List ℚ → List ℚ)
    (temperatures : List ℚ) (num_draft_tokens : Nat)
    (accepted_indices : List Nat) (next_token_logits : List (List ℚ))
    (verified_id : List Nat) (accept_length_per_req_cpu : List Nat)
    (reqs : List LogprobReq) : List ℚ × List LogprobReq :=
  let temps := gather_temperatures temperatures num_draft_tokens accepted_indices
  let logprobs := scaled_logprob_rows log_softmax_row next_token_logits temps
  let next_token_logprobs := select_verified_logprobs logprobs verified_id
  let num_tokens_per_req := accept_length_per_req_cpu.map (· + 1)
  (next_token_logprobs,
    attach_output_logprobs next_token_logprobs verified_id
      (reqs.zip num_tokens_per_req) 0)

/-- Reading a length-(n + 1) window of getD lookups starting at pt splits
into the lookup at pt followed by the length-n window starting at pt + 1. -/
theorem map_getD_range_shift {α : Type} (l : List α) (d : α) (pt n : Nat) :
    (List.range (n + 1)).map (fun k => l.getD (pt + k) d) =
      l.getD pt d :: (List.range n).map (fun k => l.getD (pt + 1 + k) d) := by
  rw [List.range_succ_eq_map, List.map_cons, List.map_map, Nat.add_zero]
  congr 1
  apply List.map_congr_left
  intro k _
  show l.getD (pt + (k + 1)) d = l.getD (pt + 1 + k) d
  congr 1
  omega

/-- Closed form of the inner token loop: pt advances by exactly n, the
return flag is unchanged, and when the request asked for logprobs the value
and id lists are extended by the n entries read at pt, pt + 1, ..., pt + n - 1. -/
theorem attach_tokens_spec (vals : List ℚ) (ids : List Nat)
    (req : LogprobReq) (pt n : Nat) :
    (attach_tokens vals ids req pt n).2 = pt + n ∧
    (attach_tokens vals ids req pt n).1.return_logprob = req.return_logprob ∧
    (attach_tokens vals ids req pt n).1.output_token_logprobs_val =
      (if req.return_logprob then
        req.output_token_logprobs_val ++
          ((List.range n).map fun k => vals.getD (pt + k) 0)
      else req.output_token_logprobs_val) ∧
    (attach_tokens vals ids req pt n).1.output_token_logprobs_idx =
      (if req.return_logprob then
        req.output_token_logprobs_idx ++
          ((List.range n).map fun k => ids.getD (pt + k) 0)
      else req.output_token_logprobs_idx) := by
  induction n generalizing req pt with
  | zero => simp [attach_tokens]
  | succ n ih =>
    cases hre : req.return_logprob with
    | false =>
      have hstep : attach_tokens vals ids req pt (n + 1) =
          attach_tokens vals ids req (pt + 1) n := by
        simp [attach_tokens, hre]
      have h := ih req (pt + 1)
      rw [hstep]
      refine ⟨by rw [h.1]; omega, h.2.1.trans hre, ?_, ?_⟩
      · rw [h.2.2.1]; simp [hre]
      · rw [h.2.2.2]; simp [hre]
    | true =>
      have hstep : attach_tokens vals ids req pt (n + 1) =
          attach_tokens vals ids
            { req with
              output_token_logprobs_val :=
                req.output_token_logprobs_val ++ [vals.getD pt 0],
              output_token_logprobs_idx :=
                req.output_token_logprobs_idx ++ [ids.getD pt 0] }
            (pt + 1) n := by
        simp [attach_tokens, hre]
      have h := ih
        { req with
          output_token_logprobs_val :=
            req.output_token_logprobs_val ++ [vals.getD pt 0],
          output_token_logprobs_idx :=
            req.output_token_logprobs_idx ++ [ids.getD pt 0] }
        (pt + 1)
      rw [hstep]
      refine ⟨by rw [h.1]; omega, h.2.1.trans hre, ?_, ?_⟩
      · rw [h.2.2.1]
        simp only [hre, if_true, map_getD_range_shift, List.append_assoc,
          List.singleton_append]
      · rw [h.2.2.2]
        simp only [hre, if_true, map_getD_range_shift, List.append_assoc,
          List.singleton_append]

/-- Closed form of the outer request loop: the request at position b is the
result of running the inner loop on the original request, with pt positioned
after the token counts of all earlier requests. -/
theorem attach_output_logprobs_getD (vals : List ℚ) (ids : List Nat)
    (pairs : List (LogprobReq × Nat)) :
    ∀ pt b, b < pairs.length →
      (attach_output_logprobs vals ids pairs pt).getD b LogprobReq.dummy =
        (attach_tokens vals ids (pairs.getD b (LogprobReq.dummy, 0)).1
          (pt + ((pairs.take b).map Prod.snd).sum)
          (pairs.getD b (LogprobReq.dummy, 0)).2).1 := by
  induction pairs with
  | nil => intro pt b hb; simp at hb
  | cons p rest ih =>
    intro pt b hb
    obtain ⟨req, n⟩ := p
    cases b with
    | zero =>
      simp [attach_output_logprobs]
    | succ b =>
      have hb2 : b < rest.length := by simpa using hb
      simp only [attach_output_logprobs, List.getD_cons_succ, List.take_succ_cons,
        List.map_cons, List.sum_cons]
      rw [ih _ b hb2, (attach_tokens_spec vals ids req pt n).1]
      congr 2
      omega

/-- The token counts of the first b zipped requests sum to the sum of the
first b token counts. -/
theorem sum_snd_take_zip (reqs : List LogprobReq) :
    ∀ (nums : List Nat) (b : Nat), b ≤ reqs.length → b ≤ nums.length →
      (((reqs.zip nums).take b).map Prod.snd).sum = (nums.take b).sum := by
  induction reqs with
  | nil =>
    intro nums b hb _
    have : b = 0 := Nat.le_zero.mp hb
    simp [this]
  | cons r rs ih =>
    intro nums b hb hb2
    cases nums with
    | nil =>
      have : b = 0 := Nat.le_zero.mp hb2
      simp [this]
    | cons n ns =>
      cases b with
      | zero => simp
      | succ b =>
        simp only [List.zip_cons_cons, List.take_succ_cons, List.map_cons,
          List.sum_cons]
        rw [ih ns b (by simpa using hb) (by simpa using hb2)]

/-- Claim C7: in `add_logprob_values`, the logprob attached at flat index j
is the abstract log-softmax of row j scaled by the temperature of request
`accepted_indices[j] / num_draft_tokens`, read at the verified token id of
j; and the per-request output lists grow by `accept_length[b] + 1` entries
(when the request asked for logprobs), read from the shared cursor
positioned after the `accept + 1` token counts of all earlier requests. -/
theorem c7_logprob_values_and_counters (log_softmax_row : List ℚ → List ℚ)
    (temperatures : List ℚ) (num_draft_tokens : Nat)
    (accepted_indices : List Nat) (next_token_logits : List (List ℚ))
    (verified_id : List Nat) (accept_length_per_req_cpu : List Nat)
    (reqs : List LogprobReq)
    (hacc : accepted_indices.length = next_token_logits.length)
    (hver : verified_id.length = next_token_logits.length)
    (hreq : reqs.length = accept_length_per_req_cpu.length) :
    (∀ j, j < next_token_logits.length →
      (add_logprob_values log_softmax_row temperatures num_draft_tokens
          accepted_indices next_token_logits verified_id
          accept_length_per_req_cpu reqs).1.getD j 0 =
        (log_softmax_row ((next_token_logits.getD j []).map fun x =>
            x / temperatures.getD
              (accepted_indices.getD j 0 / num_draft_tokens) 0)).getD
          (verified_id.getD j 0) 0) ∧
    (∀ b, b < reqs.length →
      ((add_logprob_values log_softmax_row temperatures num_draft_tokens
          accepted_indices next_token_logits verified_id
          accept_length_per_req_cpu reqs).2.getD b
          LogprobReq.dummy).output_token_logprobs_val =
        (if (reqs.getD b LogprobReq.dummy).return_logprob then
          (reqs.getD b LogprobReq.dummy).output_token_logprobs_val ++
            ((List.range (accept_length_per_req_cpu.getD b 0 + 1)).map fun k =>
              (add_logprob_values log_softmax_row temperatures num_draft_tokens
                  accepted_indices next_token_logits verified_id
                  accept_length_per_req_cpu reqs).1.getD
                (((accept_length_per_req_cpu.take b).map (· + 1)).sum + k) 0)
        else (reqs.getD b LogprobReq.dummy).output_token_logprobs_val)) ∧
    (∀ b, b < reqs.length →
      ((add_logprob_values log_softmax_row temperatures num_draft_tokens
          accepted_indices next_token_logits verified_id
          accept_length_per_req_cpu reqs).2.getD b
          LogprobReq.dummy).output_token_logprobs_val.length =
        (reqs.getD b LogprobReq.dummy).output_token_logprobs_val.length +
          (if (reqs.getD b LogprobReq.dummy).return_logprob then
            accept_length_per_req_cpu.getD b 0 + 1
          else 0)) := by
  have htl : (gather_temperatures temperatures num_draft_tokens
      accepted_indices).length = next_token_logits.length := by
    simp [gather_temperatures, hacc]
  have hlp : (scaled_logprob_rows log_softmax_row next_token_logits
      (gather_temperatures temperatures num_draft_tokens
        accepted_indices)).length = next_token_logits.length := by
    simp [scaled_logprob_rows, htl]
  have hvlen : (select_verified_logprobs
      (scaled_logprob_rows log_softmax_row next_token_logits
        (gather_temperatures temperatures num_draft_tokens accepted_indices))
      verified_id).length = next_token_logits.length := by
    simp [select_verified_logprobs, hlp, hver]
  have key2 : ∀ b, b < reqs.length →
      ((add_logprob_values log_softmax_row temperatures num_draft_tokens
          accepted_indices next_token_logits verified_id
          accept_length_per_req_cpu reqs).2.getD b
          LogprobReq.dummy).output_token_logprobs_val =
        (if (reqs.getD b LogprobReq.dummy).return_logprob then
          (reqs.getD b LogprobReq.dummy).output_token_logprobs_val ++
            ((List.range (accept_length_per_req_cpu.getD b 0 + 1)).map fun k =>
              (add_logprob_values log_softmax_row temperatures num_draft_tokens
                  accepted_indices next_token_logits verified_id
                  accept_length_per_req_cpu reqs).1.getD
                (((accept_length_per_req_cpu.take b).map (· + 1)).sum + k) 0)
        else (reqs.getD b LogprobReq.dummy).output_token_logprobs_val) := by
    intro b hb
    have hb2 : b < accept_length_per_req_cpu.length := hreq ▸ hb
    have hb3 : b < (accept_length_per_req_cpu.map (· + 1)).length := by
      simp only [List.length_map]
      omega
    have hpairs : b <
        (reqs.zip (accept_length_per_req_cpu.map (· + 1))).length := by
      simp only [List.length_zip, List.length_map]
      omega
    show ((attach_output_logprobs
        (select_verified_logprobs
          (scaled_logprob_rows log_softmax_row next_token_logits
            (gather_temperatures temperatures num_draft_tokens accepted_indices))
          verified_id) verified_id
        (reqs.zip (accept_length_per_req_cpu.map (· + 1))) 0).getD b
          LogprobReq.dummy).output_token_logprobs_val = _
    rw [attach_output_logprobs_getD _ _ _ 0 b hpairs]
    rw [List.getD_eq_getElem _ _ hpairs, List.getElem_zip]
    have hpair1 :
        (reqs[b], (accept_length_per_req_cpu.map (· + 1))[b]).1 = reqs[b] := rfl
    have hnumsb : (accept_length_per_req_cpu.map (· + 1))[b] =
        accept_length_per_req_cpu[b] + 1 := by
      simp
    rw [(attach_tokens_spec _ _ _ _ _).2.2.1]
    have hsum : (((reqs.zip
          (accept_length_per_req_cpu.map (· + 1))).take b).map Prod.snd).sum =
        ((accept_length_per_req_cpu.take b).map (· + 1)).sum := by
      rw [sum_snd_take_zip reqs (accept_length_per_req_cpu.map (· + 1)) b
        (by omega) (by simp; omega)]
      rw [List.map_take]
    rw [List.getD_eq_getElem reqs LogprobReq.dummy hb,
      List.getD_eq_getElem accept_length_per_req_cpu 0 hb2]
    simp only [hnumsb, hsum, Nat.zero_add]
    rfl
  refine ⟨?_, key2, ?_⟩
  · intro j hj
    have hj2 : j < accepted_indices.length := hacc ▸ hj
    have hj3 : j < verified_id.length := hver ▸ hj
    have hv : j < (select_verified_logprobs
        (scaled_logprob_rows log_softmax_row next_token_logits
          (gather_temperatures temperatures num_draft_tokens accepted_indices))
        verified_id).length := hvlen ▸ hj
    show (select_verified_logprobs
        (scaled_logprob_rows log_softmax_row next_token_logits
          (gather_temperatures temperatures num_draft_tokens accepted_indices))
        verified_id).getD j 0 = _
    rw [List.getD_eq_getElem _ _ hv,
      List.getD_eq_getElem next_token_logits [] hj,
      List.getD_eq_getElem accepted_indices 0 hj2,
      List.getD_eq_getElem verified_id 0 hj3]
    simp only [select_verified_logprobs, scaled_logprob_rows,
      gather_temperatures, List.getElem_map, List.getElem_zip]
  · intro b hb
    rw [key2 b hb]
    by_cases hre : (reqs.getD b LogprobReq.dummy).return_logprob = true
    · rw [if_pos hre, if_pos hre]
      simp only [List.length_append, List.length_map, List.length_range]
    · rw [if_neg hre, if_neg hre]
      omega

/-- Claim C7 witness: one request with one accepted token, identity row
transform, temperature 1, one logit row. -/
theorem c7_logprob_values_and_counters_witness :
    ([0] : List Nat).length = ([[(2 : ℚ), 3]] : List (List ℚ)).length ∧
    ([1] : List Nat).length = ([[(2 : ℚ), 3]] : List (List ℚ)).length ∧
    ([LogprobReq.mk true [] []]).length = ([0] : List Nat).length ∧
    ((∀ j, j < ([[(2 : ℚ), 3]] : List (List ℚ)).length →
      (add_logprob_values (fun r => r) [1] 1 [0] [[(2 : ℚ), 3]] [1] [0]
          [LogprobReq.mk true [] []]).1.getD j 0 =
        ((fun (r : List ℚ) => r)
            ((([[(2 : ℚ), 3]] : List (List ℚ)).getD j []).map fun x =>
              x / ([(1 : ℚ)]).getD
                (([0] : List Nat).getD j 0 / 1) 0)).getD
          (([1] : List Nat).getD j 0) 0) ∧
    (∀ b, b < ([LogprobReq.mk true [] []]).length →
      ((add_logprob_values (fun r => r) [1] 1 [0] [[(2 : ℚ), 3]] [1] [0]
          [LogprobReq.mk true [] []]).2.getD b
          LogprobReq.dummy).output_token_logprobs_val =
        (if (([LogprobReq.mk true [] []]).getD b LogprobReq.dummy).return_logprob then
          (([LogprobReq.mk true [] []]).getD b
              LogprobReq.dummy).output_token_logprobs_val ++
            ((List.range (([0] : List Nat).getD b 0 + 1)).map fun k =>
              (add_logprob_values (fun r => r) [1] 1 [0] [[(2 : ℚ), 3]] [1] [0]
                  [LogprobReq.mk true [] []]).1.getD
                (((([0] : List Nat).take b).map (· + 1)).sum + k) 0)
        else (([LogprobReq.mk true [] []]).getD b
            LogprobReq.dummy).output_token_logprobs_val)) ∧
    (∀ b, b < ([LogprobReq.mk true [] []]).length →
      ((add_logprob_values (fun r => r) [1] 1 [0] [[(2 : ℚ), 3]] [1] [0]
          [LogprobReq.mk true [] []]).2.getD b
          LogprobReq.dummy).output_token_logprobs_val.length =
        (([LogprobReq.mk true [] []]).getD b
            LogprobReq.dummy).output_token_logprobs_val.length +
          (if (([LogprobReq.mk true [] []]).getD b
              LogprobReq.dummy).return_logprob then
            ([0] : List Nat).getD b 0 + 1
          else 0))) :=
  ⟨rfl, rfl, rfl,
    c7_logprob_values_and_counters (fun r => r) [1] 1 [0] [[(2 : ℚ), 3]] [1] [0]
      [LogprobReq.mk true [] []] rfl rfl rfl⟩

end EagleWorker
